import Mathlib

/-!
Verification of the blog post API (`src/app.py`) against its specification.

The program is shallowly embedded: every definition below mirrors a function
or global of `app.py`.  Strings are Lean `String`s, Python `time.time()`
instants are modelled as integers (only order and subtraction matter),
the JSON file on disk is a `FileState`, and the mutable globals
(`posts`, `next_id`, `ip_timestamps`, the posts file) are gathered into an
`AppState` threaded through the request handlers.
-/

namespace Blog

/-! ### JSON values (the shape `json.load` / `json.dump` work with) -/

inductive Json where
  | null
  | bool (b : Bool)
  | num (n : Int)
  | str (s : String)
  | arr (elems : List Json)
  | obj (fields : List (String × Json))
deriving Repr

/-- The on-disk state of `posts.json`: absent, present but not syntactically
valid JSON (a `json.JSONDecodeError` on parse), or a parsed JSON document. -/
inductive FileState where
  | missing
  | invalid
  | json (v : Json)
deriving Repr

/-! ### Posts -/

/-- A stored post: the dict built in `create_post` (app.py lines 106–112). -/
structure Post where
  id : Nat
  title : String
  name : String
  content : String
  created_at : String
deriving Repr, DecidableEq

/-! ### Spam / length checks (app.py lines 58–71) -/

def MAX_TITLE_LEN : Nat := 200
def MAX_NAME_LEN : Nat := 100
def MAX_CONTENT_LEN : Nat := 5000

/-- Embeds `sanitize_text` (app.py line 62): `s.strip()`, i.e. drop leading and
trailing whitespace (implemented structurally over the character list). -/
def sanitize_text (s : String) : String :=
  ⟨((s.data.dropWhile Char.isWhitespace).reverse.dropWhile
      Char.isWhitespace).reverse⟩

/-- Substring containment, as Python's `needle in hay` on strings. -/
def containsSub (needle : List Char) : List Char → Bool
  | [] => needle.isEmpty
  | c :: rest => needle.isPrefixOf (c :: rest) || containsSub needle rest

/-- Python's `s.lower()` on the character list of a string. -/
def lowerChars (s : String) : List Char := s.data.map Char.toLower

/-- Embeds `is_spam` (app.py lines 65–71).  Note the three fields are joined with a
single space: `lowered = (title + " " + content).lower()`. -/
def is_spam (title name content : String) : Bool :=
  if title.length > MAX_TITLE_LEN || name.length > MAX_NAME_LEN
      || content.length > MAX_CONTENT_LEN then
    true
  else if containsSub "<script".data (lowerChars (title ++ " " ++ content))
      || containsSub "javascript:".data (lowerChars (title ++ " " ++ content)) then
    true
  else
    false

/-! ### Rate limiting (app.py lines 41–53) -/

def RATE_LIMIT_COUNT : Nat := 5
def RATE_LIMIT_WINDOW : Int := 3600

/-- The pruning loop in `check_rate_limit` (app.py lines 48–49):
`while dq and dq[0] <= now - RATE_LIMIT_WINDOW: dq.popleft()`. -/
def pruneWindow (now : Int) : List Int → List Int
  | [] => []
  | t :: rest => if t ≤ now - RATE_LIMIT_WINDOW then pruneWindow now rest else t :: rest

/-- Embeds `check_rate_limit` (app.py lines 45–50).  The deque is mutated in place
by the pruning loop, so the pruned deque is returned alongside the verdict. -/
def check_rate_limit (now : Int) (dq : List Int) : Bool × List Int :=
  let dq' := pruneWindow now dq
  (decide (dq'.length < RATE_LIMIT_COUNT), dq')

/-- Embeds `record_post_ip` (app.py lines 52–53): append the current instant. -/
def record_post_ip (now : Int) (dq : List Int) : List Int := dq ++ [now]

/-- One admission attempt as the pipeline performs it for a single identity:
`check_rate_limit`, and on success `record_post_ip`, both at instant `now`
(app.py lines 102, 116). -/
def admitRecord (now : Int) (dq : List Int) : Bool × List Int :=
  let c := check_rate_limit now dq
  if c.1 then (true, record_post_ip now c.2) else (false, c.2)

/-! ### Persistence (app.py lines 16–36) -/

/-- The JSON encoding of one post, as `json.dump` writes the dict. -/
def encodePost (p : Post) : Json :=
  .obj [("id", .num p.id), ("title", .str p.title), ("name", .str p.name),
        ("content", .str p.content), ("created_at", .str p.created_at)]

/-- The JSON document `save_posts` (app.py lines 30–36) writes: the array of
encoded posts.  The atomic tmp-file/replace dance leaves exactly this as the
file's new contents. -/
def save_posts (posts : List Post) : Json := .arr (posts.map encodePost)

/-- Embeds `load_posts` (app.py lines 18–25): missing file or a `JSONDecodeError`
yields the empty list; otherwise the parsed document is returned as-is,
whatever its shape. -/
def load_posts : FileState → Json
  | .missing => .arr []
  | .invalid => .arr []
  | .json v => v

/-- Lookup in a JSON object, as Python's `p["id"]` on a parsed dict. -/
def jsonLookup : List (String × Json) → String → Option Json
  | [], _ => none
  | (k, v) :: rest, key => if k = key then some v else jsonLookup rest key

/-- Models `p["id"]` for an element of the loaded document, succeeding only when the
element is an object with a numeric `"id"`; any other shape raises
(`TypeError`/`KeyError`) in Python, modelled as `none`. -/
def getId : Json → Option Int
  | .obj fields =>
      match jsonLookup fields "id" with
      | some (.num n) => some n
      | _ => none
  | _ => none

/-- Python's `max(xs, default=d)`. -/
def maxDefault : List Int → Int → Int
  | [], d => d
  | x :: xs, _ => xs.foldl max x

/-- The startup id computation `max([p["id"] for p in posts], default=0) + 1`
(app.py line 28) applied to the loaded JSON document; `none` models an
exception (document not a list, or an element without a numeric `"id"`). -/
def computeNextId (v : Json) : Option Int :=
  match v with
  | .arr elems => (elems.mapM getId).map (fun ids => maxDefault ids 0 + 1)
  | _ => none

/-- Reading a loaded document back into posts: succeeds exactly on the
documents `save_posts` produces.  This is the equivalence the round-trip
property speaks about (the Python code uses the parsed dicts directly). -/
def decodePost : Json → Option Post
  | .obj fields =>
      match jsonLookup fields "id", jsonLookup fields "title",
            jsonLookup fields "name", jsonLookup fields "content",
            jsonLookup fields "created_at" with
      | some (.num i), some (.str t), some (.str n), some (.str c),
          some (.str ca) => some ⟨i.toNat, t, n, c, ca⟩
      | _, _, _, _, _ => none
  | _ => none

/-- Decode a whole loaded document into a post collection. -/
def decodePosts (v : Json) : Option (List Post) :=
  match v with
  | .arr elems => elems.mapM decodePost
  | _ => none

/-! ### Application state and request handlers (app.py lines 27–28, 43, 76, 81–138) -/

/-- The mutable module globals of `app.py`: `posts`, `next_id`,
`ip_timestamps` (identity → deque of instants), the `posts.json` file,
plus a count of completed `save_posts` calls (to state that a handler did
or did not invoke the durability layer). -/
structure AppState where
  posts : List Post
  next_id : Nat
  rl : String → List Int
  file : FileState
  saves : Nat

/-- Point update of the rate-limit table (in Python the deque for `ip` is
mutated in place). -/
def updateRL (rl : String → List Int) (ip : String) (dq : List Int) :
    String → List Int :=
  fun k => if k = ip then dq else rl k

/-- The state of a fresh process started with no `posts.json`:
`posts = load_posts() = []`, `next_id = max([], default=0) + 1 = 1`,
an empty rate table (app.py lines 27–28, 43). -/
def initState : AppState :=
  { posts := [], next_id := 1, rl := fun _ => [], file := .missing, saves := 0 }

/-- The JSON body of a `POST /api/posts` request: `data.get("title", "")`
etc., with a missing field as `none` (a malformed body is the empty
object, all fields `none`). -/
structure RequestData where
  titleField : Option String
  nameField : Option String
  contentField : Option String

/-- Outcome of `create_post`: the HTTP responses 400/400/429/201, plus the
exception path where `save_posts` raises after the in-memory mutations
(surfaced by Flask as a 500). -/
inductive CreateResult where
  | validationError
  | spamRejected
  | rateLimited
  | created (p : Post)
  | persistFailed (p : Post)
deriving Repr, DecidableEq

/-- Embeds `create_post` (app.py lines 85–119).  `ip` is the client identity derived
from the headers (line 100), `now` the instant of the request, `ca` the
`created_at` string minted at line 105, and `persistOk` whether the
`save_posts()` call at line 117 completes (on failure the in-memory
append, increment and rate-limit record at lines 114–116 are NOT rolled
back and the file is left as it was). -/
def create_post (st : AppState) (data : RequestData) (ip : String) (now : Int)
    (ca : String) (persistOk : Bool) : CreateResult × AppState :=
  let title := sanitize_text (data.titleField.getD "")
  let name0 := sanitize_text (data.nameField.getD "")
  let name := if name0 = "" then "Anonymous" else name0
  let content := sanitize_text (data.contentField.getD "")
  if title = "" ∨ content = "" then
    (.validationError, st)
  else if is_spam title name content then
    (.spamRejected, st)
  else
    let c := check_rate_limit now (st.rl ip)
    if ¬ c.1 then
      (.rateLimited, { st with rl := updateRL st.rl ip c.2 })
    else
      let post : Post := ⟨st.next_id, title, name, content, ca⟩
      if persistOk then
        (.created post,
          { posts := st.posts ++ [post], next_id := st.next_id + 1,
            rl := updateRL st.rl ip (record_post_ip now c.2),
            file := .json (save_posts (st.posts ++ [post])),
            saves := st.saves + 1 })
      else
        (.persistFailed post,
          { posts := st.posts ++ [post], next_id := st.next_id + 1,
            rl := updateRL st.rl ip (record_post_ip now c.2),
            file := st.file, saves := st.saves })

/-- Outcome of `delete_post`: 403 / 200 / 404. -/
inductive DeleteResult where
  | unauthorized
  | deleted
  | notFound
deriving Repr, DecidableEq

/-- The removal loop of `delete_post` (app.py lines 127–132): remove the
first post whose `id` matches, report whether one was found. -/
def removeFirstById : List Post → Nat → List Post × Bool
  | [], _ => ([], false)
  | p :: rest, pid =>
      if p.id = pid then (rest, true)
      else
        let r := removeFirstById rest pid
        (p :: r.1, r.2)

/-- Embeds `delete_post` (app.py lines 121–138).  `adminKey` is the configured
`ADMIN_KEY` (line 76), `key` the supplied `X-Admin-Key` header (`none` when
absent; `request.headers.get` yields `None` and `None != ADMIN_KEY`). -/
def delete_post (adminKey : String) (st : AppState) (key : Option String)
    (pid : Nat) : DeleteResult × AppState :=
  if key ≠ some adminKey then
    (.unauthorized, st)
  else
    let r := removeFirstById st.posts pid
    if r.2 then
      (.deleted,
        { st with posts := r.1, file := .json (save_posts r.1),
                  saves := st.saves + 1 })
    else
      (.notFound, st)

/-- Embeds `list_posts` (app.py lines 81–83): `list(reversed(posts))`, a fresh list
holding the posts newest-first. -/
def list_posts (st : AppState) : List Post := st.posts.reverse

/-! ### Request traces -/

/-- One incoming request that can mutate state. -/
inductive Op where
  | create (data : RequestData) (ip : String) (now : Int) (ca : String)
      (persistOk : Bool)
  | del (key : Option String) (pid : Nat)

/-- State transition of one request. -/
def applyOp (adminKey : String) (st : AppState) : Op → AppState
  | .create d ip now ca ok => (create_post st d ip now ca ok).2
  | .del k pid => (delete_post adminKey st k pid).2

/-- Run a trace of requests. -/
def runOps (adminKey : String) (st : AppState) : List Op → AppState
  | [] => st
  | op :: ops => runOps adminKey (applyOp adminKey st op) ops

/-- The id assigned by one request: the id of the post appended by an
accepted submission (also when the subsequent persist fails, since the
append already happened), nothing otherwise. -/
def stepAssigned (st : AppState) : Op → List Nat
  | .create d ip now ca ok =>
      match (create_post st d ip now ca ok).1 with
      | .created p => [p.id]
      | .persistFailed p => [p.id]
      | _ => []
  | .del _ _ => []

/-- The ids assigned along a trace, in order of acceptance. -/
def assignedIds (adminKey : String) (st : AppState) : List Op → List Nat
  | [] => []
  | op :: ops =>
      stepAssigned st op ++ assignedIds adminKey (applyOp adminKey st op) ops

/-! ### Helper lemmas: how one request changes the store -/

/-- How `create_post` can change the store: either the request was rejected
and `posts`/`next_id` are untouched, or a single post carrying the current
`next_id` was appended and `next_id` was incremented. -/
def CreateShape (st : AppState) (r : CreateResult × AppState) : Prop :=
  (r.2.posts = st.posts ∧ r.2.next_id = st.next_id
    ∧ ∀ p : Post, r.1 ≠ .created p ∧ r.1 ≠ .persistFailed p)
  ∨ (∃ p : Post,
      (r.1 = .created p ∨ r.1 = .persistFailed p)
      ∧ p.id = st.next_id
      ∧ r.2.posts = st.posts ++ [p]
      ∧ r.2.next_id = st.next_id + 1)

theorem create_post_shape (st : AppState) (d : RequestData) (ip : String)
    (now : Int) (ca : String) (ok : Bool) :
    CreateShape st (create_post st d ip now ca ok) := by
  unfold create_post CreateShape
  dsimp only
  repeat' split
  all_goals first
    | exact Or.inl ⟨rfl, rfl, fun p => by constructor <;> simp⟩
    | exact Or.inr ⟨_, Or.inl rfl, rfl, rfl, rfl⟩
    | exact Or.inr ⟨_, Or.inr rfl, rfl, rfl, rfl⟩

theorem stepAssigned_eq_nil (st : AppState) (d : RequestData) (ip : String)
    (now : Int) (ca : String) (ok : Bool)
    (h : ∀ p : Post, (create_post st d ip now ca ok).1 ≠ .created p
          ∧ (create_post st d ip now ca ok).1 ≠ .persistFailed p) :
    stepAssigned st (.create d ip now ca ok) = [] := by
  unfold stepAssigned
  dsimp only
  split
  · rename_i p hp
    exact absurd hp (h p).1
  · rename_i p hp
    exact absurd hp (h p).2
  · rfl

theorem stepAssigned_eq_single (st : AppState) (d : RequestData) (ip : String)
    (now : Int) (ca : String) (ok : Bool) (p : Post)
    (h : (create_post st d ip now ca ok).1 = .created p
          ∨ (create_post st d ip now ca ok).1 = .persistFailed p) :
    stepAssigned st (.create d ip now ca ok) = [p.id] := by
  unfold stepAssigned
  dsimp only
  rcases h with h | h <;> rw [h]

theorem removeFirstById_sublist (ps : List Post) (pid : Nat) :
    List.Sublist (removeFirstById ps pid).1 ps := by
  induction ps with
  | nil => exact List.Sublist.refl _
  | cons p rest ih =>
      unfold removeFirstById
      dsimp only
      split
      · exact List.sublist_cons_self p rest
      · exact List.Sublist.cons₂ p ih

/-- Lemma: `delete_post` never grows the store and never touches `next_id`. -/
theorem delete_post_shape (ak : String) (st : AppState) (k : Option String)
    (pid : Nat) :
    List.Sublist (delete_post ak st k pid).2.posts st.posts
    ∧ (delete_post ak st k pid).2.next_id = st.next_id := by
  unfold delete_post
  dsimp only
  split
  · exact ⟨List.Sublist.refl _, rfl⟩
  · split
    · exact ⟨removeFirstById_sublist _ _, rfl⟩
    · exact ⟨List.Sublist.refl _, rfl⟩

/-! ### The store invariant -/

/-- Ids in the store are strictly increasing in position (so all distinct)
and all below the allocator's `next_id`. -/
def StoreInv (st : AppState) : Prop :=
  st.posts.Pairwise (fun a b => a.id < b.id)
  ∧ ∀ p ∈ st.posts, p.id < st.next_id

theorem initState_inv : StoreInv initState :=
  ⟨List.Pairwise.nil, fun _ h => absurd h (List.not_mem_nil _)⟩

theorem applyOp_inv (ak : String) (st : AppState) (op : Op)
    (h : StoreInv st) : StoreInv (applyOp ak st op) := by
  cases op with
  | create d ip now ca ok =>
      rcases create_post_shape st d ip now ca ok with
        ⟨hp, hn, -⟩ | ⟨p, -, hid, hp, hn⟩
      · exact ⟨hp ▸ h.1, fun q hq => hn ▸ h.2 q (hp ▸ hq)⟩
      · constructor
        · rw [show applyOp ak st (.create d ip now ca ok)
                = (create_post st d ip now ca ok).2 from rfl, hp]
          rw [List.pairwise_append]
          refine ⟨h.1, List.pairwise_singleton _ _, ?_⟩
          intro a ha b hb
          rw [List.mem_singleton] at hb
          rw [hb, hid]
          exact h.2 a ha
        · intro q hq
          rw [show applyOp ak st (.create d ip now ca ok)
                = (create_post st d ip now ca ok).2 from rfl] at hq ⊢
          rw [hp, List.mem_append, List.mem_singleton] at hq
          rw [hn]
          rcases hq with hq | hq
          · exact Nat.lt_succ_of_lt (h.2 q hq)
          · rw [hq, hid]
            exact Nat.lt_succ_self _
  | del k pid =>
      have hd := delete_post_shape ak st k pid
      exact ⟨h.1.sublist hd.1,
        fun q hq => hd.2 ▸ h.2 q (hd.1.subset hq)⟩

theorem runOps_inv (ak : String) (ops : List Op) (st : AppState)
    (h : StoreInv st) : StoreInv (runOps ak st ops) := by
  induction ops generalizing st with
  | nil => exact h
  | cons op ops ih => exact ih _ (applyOp_inv ak st op h)

/-- Along any trace, the assigned ids are the consecutive block starting at
the current `next_id`. -/
theorem assignedIds_range (ak : String) (ops : List Op) (st : AppState)
    (h : StoreInv st) :
    ∃ k, assignedIds ak st ops = List.range' st.next_id k := by
  induction ops generalizing st with
  | nil => exact ⟨0, rfl⟩
  | cons op ops ih =>
      have hinv := applyOp_inv ak st op h
      obtain ⟨k, e⟩ := ih _ hinv
      cases op with
      | create d ip now ca ok =>
          rcases create_post_shape st d ip now ca ok with
            ⟨hp, hn, hne⟩ | ⟨p, hres, hid, hp, hn⟩
          · have h0 := stepAssigned_eq_nil st d ip now ca ok hne
            have hn' : (applyOp ak st (.create d ip now ca ok)).next_id
                = st.next_id := hn
            refine ⟨k, ?_⟩
            simp only [assignedIds, h0, List.nil_append]
            rw [e, hn']
          · have h1 := stepAssigned_eq_single st d ip now ca ok p hres
            have hn' : (applyOp ak st (.create d ip now ca ok)).next_id
                = st.next_id + 1 := hn
            refine ⟨k + 1, ?_⟩
            simp only [assignedIds, h1, List.singleton_append]
            rw [e, hn', hid, List.range'_succ]
      | del key pid =>
          have hn' : (applyOp ak st (.del key pid)).next_id = st.next_id :=
            (delete_post_shape ak st key pid).2
          refine ⟨k, ?_⟩
          simp only [assignedIds, stepAssigned, List.nil_append]
          rw [e, hn']

/-- C2: For every sequence of accepted submissions and deletions on a store
that started empty, the Nth accepted post is assigned id N (the assigned
ids are `[1, 2, ..., k]` in order of acceptance, so no id is ever assigned
twice, even after the post holding the maximum id is deleted), and the
store never contains two posts with the same id. -/
theorem create_ids_sequential (ak : String) (ops : List Op) :
    assignedIds ak initState ops
      = List.range' 1 (assignedIds ak initState ops).length
    ∧ ((runOps ak initState ops).posts.map Post.id).Nodup := by
  constructor
  · obtain ⟨k, e⟩ := assignedIds_range ak ops initState initState_inv
    rw [e]
    simp only [List.length_range']
    exact congrArg (List.range' · k) rfl
  · have hinv := runOps_inv ak ops initState initState_inv
    exact List.Pairwise.map Post.id (fun a b hab => Nat.ne_of_lt hab) hinv.1

/-- C5: `list_posts` (GET /api/posts) returns all stored posts in strictly
decreasing id order — newest first, the reverse of creation order.  (In the
embedding `list_posts` is a pure function of the state; it returns a fresh
list and mutates nothing, so the snapshot part of the claim is immediate.) -/
theorem list_posts_strictly_decreasing (ak : String) (ops : List Op) :
    list_posts (runOps ak initState ops)
      = (runOps ak initState ops).posts.reverse
    ∧ (list_posts (runOps ak initState ops)).Pairwise
        (fun a b => b.id < a.id) := by
  refine ⟨rfl, ?_⟩
  have hinv := runOps_inv ak ops initState initState_inv
  exact List.pairwise_reverse.mpr hinv.1

/-! ### Rate limiter lemmas -/

theorem pruneWindow_cons_of_recent (now t : Int) (rest : List Int)
    (h : now < t + RATE_LIMIT_WINDOW) :
    pruneWindow now (t :: rest) = t :: rest := by
  simp only [pruneWindow]
  rw [if_neg (by linarith)]

theorem pruneWindow_cons_of_old (now t : Int) (rest : List Int)
    (h : t ≤ now - RATE_LIMIT_WINDOW) :
    pruneWindow now (t :: rest) = pruneWindow now rest := by
  simp only [pruneWindow]
  rw [if_pos h]

theorem pruneWindow_length_le (now : Int) (dq : List Int) :
    (pruneWindow now dq).length ≤ dq.length := by
  induction dq with
  | nil => exact Nat.le_refl _
  | cons t rest ih =>
      simp only [pruneWindow]
      split
      · exact le_trans ih (Nat.le_succ _)
      · exact Nat.le_refl _

/-- C1: starting from an empty window, five submissions within the 3600s
window are all admitted and recorded; a sixth within the same window is
denied; and an admission attempted more than 3600 seconds after the first
recorded timestamp is allowed again. -/
theorem rate_limit_five_then_deny_then_allow
    (t1 t2 t3 t4 t5 t6 t7 : Int)
    (h12 : t1 ≤ t2) (h23 : t2 ≤ t3) (h34 : t3 ≤ t4) (h45 : t4 ≤ t5)
    (h56 : t5 ≤ t6) (hwin : t6 < t1 + RATE_LIMIT_WINDOW)
    (hlate : t1 + RATE_LIMIT_WINDOW < t7) :
    admitRecord t1 [] = (true, [t1])
    ∧ admitRecord t2 [t1] = (true, [t1, t2])
    ∧ admitRecord t3 [t1, t2] = (true, [t1, t2, t3])
    ∧ admitRecord t4 [t1, t2, t3] = (true, [t1, t2, t3, t4])
    ∧ admitRecord t5 [t1, t2, t3, t4] = (true, [t1, t2, t3, t4, t5])
    ∧ admitRecord t6 [t1, t2, t3, t4, t5] = (false, [t1, t2, t3, t4, t5])
    ∧ (admitRecord t7 [t1, t2, t3, t4, t5]).1 = true := by
  have e2 := pruneWindow_cons_of_recent t2 t1 [] (by linarith)
  have e3 := pruneWindow_cons_of_recent t3 t1 [t2] (by linarith)
  have e4 := pruneWindow_cons_of_recent t4 t1 [t2, t3] (by linarith)
  have e5 := pruneWindow_cons_of_recent t5 t1 [t2, t3, t4] (by linarith)
  have e6 := pruneWindow_cons_of_recent t6 t1 [t2, t3, t4, t5] (by linarith)
  have e7 := pruneWindow_cons_of_old t7 t1 [t2, t3, t4, t5] (by linarith)
  have hlen : (pruneWindow t7 [t2, t3, t4, t5]).length < 5 :=
    lt_of_le_of_lt (pruneWindow_length_le t7 [t2, t3, t4, t5]) (by norm_num)
  refine ⟨?_, ?_, ?_, ?_, ?_, ?_, ?_⟩
  · simp [admitRecord, check_rate_limit, record_post_ip, pruneWindow,
      RATE_LIMIT_COUNT]
  · simp [admitRecord, check_rate_limit, record_post_ip, e2, RATE_LIMIT_COUNT]
  · simp [admitRecord, check_rate_limit, record_post_ip, e3, RATE_LIMIT_COUNT]
  · simp [admitRecord, check_rate_limit, record_post_ip, e4, RATE_LIMIT_COUNT]
  · simp [admitRecord, check_rate_limit, record_post_ip, e5, RATE_LIMIT_COUNT]
  · simp [admitRecord, check_rate_limit, record_post_ip, e6, RATE_LIMIT_COUNT]
  · simp [admitRecord, check_rate_limit, record_post_ip, e7, hlen,
      RATE_LIMIT_COUNT]

/-- Witness for C1: five submissions at instant 0, a sixth still at 0
(denied), and one at 4000 > 0 + 3600 (allowed again). -/
theorem rate_limit_five_then_deny_then_allow_witness :
    admitRecord 0 [] = (true, [0])
    ∧ admitRecord 0 [0] = (true, [0, 0])
    ∧ admitRecord 0 [0, 0] = (true, [0, 0, 0])
    ∧ admitRecord 0 [0, 0, 0] = (true, [0, 0, 0, 0])
    ∧ admitRecord 0 [0, 0, 0, 0] = (true, [0, 0, 0, 0, 0])
    ∧ admitRecord 0 [0, 0, 0, 0, 0] = (false, [0, 0, 0, 0, 0])
    ∧ (admitRecord 4000 [0, 0, 0, 0, 0]).1 = true :=
  rate_limit_five_then_deny_then_allow 0 0 0 0 0 0 4000
    (by decide) (by decide) (by decide) (by decide) (by decide)
    (by decide) (by decide)

/-- C6 counterexample: the claim says a timestamp exactly equal to
`now - windowSeconds` is retained and still counts; the pruning loop uses
`dq[0] <= now - RATE_LIMIT_WINDOW` and discards it.  At `now = 3600` the
timestamp `0` equals `now - RATE_LIMIT_WINDOW` yet is discarded, and the
subsequent count is 0, not 1. -/
theorem prune_boundary_discarded :
    (0 : Int) = 3600 - RATE_LIMIT_WINDOW
    ∧ pruneWindow 3600 [(0 : Int)] = []
    ∧ check_rate_limit 3600 [(0 : Int)] = (true, []) := by
  decide

/-- C6 amended: on each admit call, exactly the recorded timestamps older
than **or equal to** `now - windowSeconds` are discarded from the front of
the (chronologically ordered) sequence; a timestamp exactly equal to the
boundary is discarded and does not count toward the quota. -/
theorem pruneWindow_eq_filter (now : Int) (dq : List Int)
    (hs : dq.Pairwise (· ≤ ·)) :
    pruneWindow now dq
      = dq.filter (fun t => decide (now - RATE_LIMIT_WINDOW < t)) := by
  induction dq with
  | nil => rfl
  | cons t rest ih =>
      rw [List.pairwise_cons] at hs
      simp only [pruneWindow, List.filter_cons]
      by_cases h : t ≤ now - RATE_LIMIT_WINDOW
      · rw [if_pos h, ih hs.2]
        simp [not_lt.mpr h]
      · rw [if_neg h]
        have h' : now - RATE_LIMIT_WINDOW < t := not_le.mp h
        rw [if_pos (by simpa using h')]
        refine congrArg (t :: ·) ?_
        exact (List.filter_eq_self.mpr
          (fun u hu => by simpa using lt_of_lt_of_le h' (hs.1 u hu))).symm

/-- Witness for the amended C6 at `now = 3600` on the chronological deque
`[0, 100, 4000]`: the entry at the boundary is discarded, the rest kept. -/
theorem pruneWindow_eq_filter_witness :
    List.Pairwise (· ≤ ·) [(0 : Int), 100, 4000]
    ∧ pruneWindow 3600 [(0 : Int), 100, 4000]
        = List.filter (fun t => decide (3600 - RATE_LIMIT_WINDOW < t))
            [(0 : Int), 100, 4000] :=
  ⟨by decide, pruneWindow_eq_filter 3600 [0, 100, 4000] (by decide)⟩

/-! ### Spam check (C3) -/

/-- Lemma: `is_spam` is `true` exactly on over-long fields or a denylist hit in the
lowercased join of `title`, a single space, and `content`. -/
theorem is_spam_true_iff (title name content : String) :
    is_spam title name content = true ↔
      (title.length > MAX_TITLE_LEN ∨ name.length > MAX_NAME_LEN
       ∨ content.length > MAX_CONTENT_LEN
       ∨ containsSub "<script".data (lowerChars (title ++ " " ++ content)) = true
       ∨ containsSub "javascript:".data
           (lowerChars (title ++ " " ++ content)) = true) := by
  unfold is_spam
  split
  · rename_i h
    simp only [Bool.or_eq_true, decide_eq_true_eq] at h
    simp only [true_iff]
    tauto
  · rename_i h
    simp only [Bool.or_eq_true, decide_eq_true_eq, not_or] at h
    split
    · rename_i h2
      simp only [Bool.or_eq_true] at h2
      simp only [true_iff]
      tauto
    · rename_i h2
      simp only [Bool.or_eq_true, not_or] at h2
      constructor
      · intro hfalse
        exact absurd hfalse (by simp)
      · rintro (hx | hx | hx | hx | hx)
        · exact absurd hx h.1.1
        · exact absurd hx h.1.2
        · exact absurd hx h.2
        · exact absurd hx h2.1
        · exact absurd hx h2.2

/-- C3 counterexample: with `title = "<scr"` and `content = "ipt"` the direct
concatenation contains `<script`, but the code joins the two fields with a
space (`title + " " + content`), so the submission passes the spam check and
is accepted — the claim that every boundary-spanning `<script` is rejected
is false. -/
theorem spam_boundary_not_rejected :
    containsSub "<script".data (lowerChars ("<scr" ++ "ipt")) = true
    ∧ is_spam "<scr" "Anonymous" "ipt" = false
    ∧ (create_post initState ⟨some "<scr", none, some "ipt"⟩ "ip" 0 "ts" true).1
        = CreateResult.created ⟨1, "<scr", "Anonymous", "ipt", "ts"⟩ := by
  refine ⟨by decide, by decide, by decide⟩

/-- C3 amended: a submission whose trimmed title and content are nonempty is
rejected with `SpamRejected` exactly when a field exceeds its length bound
or the case-folded concatenation of the trimmed title, a **single space
separator**, and the trimmed content contains `<script` or `javascript:`
(so a denylist substring split across the title/content boundary is not
detected). -/
theorem create_post_spam_iff (st : AppState) (d : RequestData) (ip : String)
    (now : Int) (ca : String) (ok : Bool)
    (ht : sanitize_text (d.titleField.getD "") ≠ "")
    (hc : sanitize_text (d.contentField.getD "") ≠ "") :
    (create_post st d ip now ca ok).1 = CreateResult.spamRejected ↔
      ((sanitize_text (d.titleField.getD "")).length > MAX_TITLE_LEN
       ∨ (if sanitize_text (d.nameField.getD "") = "" then "Anonymous"
           else sanitize_text (d.nameField.getD "")).length > MAX_NAME_LEN
       ∨ (sanitize_text (d.contentField.getD "")).length > MAX_CONTENT_LEN
       ∨ containsSub "<script".data
           (lowerChars (sanitize_text (d.titleField.getD "") ++ " "
             ++ sanitize_text (d.contentField.getD ""))) = true
       ∨ containsSub "javascript:".data
           (lowerChars (sanitize_text (d.titleField.getD "") ++ " "
             ++ sanitize_text (d.contentField.getD ""))) = true) := by
  rw [← is_spam_true_iff]
  unfold create_post
  dsimp only
  rw [if_neg (by rw [not_or]; exact ⟨ht, hc⟩)]
  repeat' split
  all_goals simp_all

/-- Witness for the amended C3: `<script>` inside the content alone is
rejected. -/
theorem create_post_spam_iff_witness :
    (create_post initState ⟨some "t", none, some "see <script> tag"⟩
        "ip" 0 "ts" true).1 = CreateResult.spamRejected :=
  (create_post_spam_iff initState ⟨some "t", none, some "see <script> tag"⟩
      "ip" 0 "ts" true (by decide) (by decide)).mpr (by decide)

/-! ### Durability round-trip (C4) -/

theorem decodePost_encodePost (p : Post) : decodePost (encodePost p) = some p := by
  simp [decodePost, encodePost, jsonLookup]

/-- C4: persisting any collection of posts with `save_posts` and then
running the load path reproduces an equivalent collection — the same
posts with the same `id`, `title`, `name`, `content` and `created_at`, in
the same order. -/
theorem save_load_roundtrip (posts : List Post) :
    decodePosts (load_posts (.json (save_posts posts))) = some posts := by
  simp only [load_posts, save_posts, decodePosts]
  induction posts with
  | nil => rfl
  | cons p ps ih =>
      simp only [List.map_cons, List.mapM_cons, decodePost_encodePost,
        Option.pure_def, Option.bind_eq_bind, Option.some_bind] at ih ⊢
      rw [ih]
      rfl

/-! ### Load path on malformed data (C9) -/

/-- C9 counterexample: the file contents `[1]` are valid JSON but malformed
as a post collection.  The load path returns the parsed document as-is —
not the empty collection — and the startup id computation
`max([p["id"] for p in posts], default=0) + 1` raises (`TypeError`),
so the process crashes instead of failing open. -/
theorem load_malformed_shape_not_empty :
    load_posts (.json (.arr [.num 1])) ≠ .arr []
    ∧ computeNextId (load_posts (.json (.arr [.num 1]))) = none := by
  constructor
  · intro h
    simp [load_posts] at h
  · rfl

/-- C9 amended: the fail-open behaviour covers exactly the missing file and
syntactically invalid JSON (a `JSONDecodeError`): in both cases the store
starts empty and the id allocator starts at 1.  File contents that parse as
JSON of the wrong shape are returned as-is (see the counterexample). -/
theorem load_fail_open_syntactic :
    load_posts .missing = .arr []
    ∧ load_posts .invalid = .arr []
    ∧ computeNextId (load_posts .missing) = some 1
    ∧ computeNextId (load_posts .invalid) = some 1 :=
  ⟨rfl, rfl, rfl, rfl⟩

/-! ### Record versus persist ordering (C7) -/

/-- C7 counterexample: `record_post_ip` runs *before* `save_posts` (app.py
lines 116–117), so a submission whose persist step fails does have its
timestamp recorded.  Concretely: a valid submission at instant 42 whose
persist fails leaves the identity's window holding `[42]` while the file
was never written (`saves = 0`, file still missing). -/
theorem record_before_persist_cex :
    (create_post initState ⟨some "hello", none, some "world"⟩
        "ip1" 42 "ts" false).1
      = CreateResult.persistFailed ⟨1, "hello", "Anonymous", "world", "ts"⟩
    ∧ ((create_post initState ⟨some "hello", none, some "world"⟩
        "ip1" 42 "ts" false).2).rl "ip1" = [42]
    ∧ ((create_post initState ⟨some "hello", none, some "world"⟩
        "ip1" 42 "ts" false).2).file = FileState.missing
    ∧ ((create_post initState ⟨some "hello", none, some "world"⟩
        "ip1" 42 "ts" false).2).saves = 0 := by
  refine ⟨by decide, by decide, rfl, by decide⟩

/-- C7 amended: the rate limiter's record is performed *before* the persist
step, so an accepted submission whose persist step fails still has its
timestamp recorded against its identity's quota; the file itself is left
unchanged. -/
theorem record_despite_persist_failure (st : AppState) (d : RequestData)
    (ip : String) (now : Int) (ca : String) (p : Post)
    (h : (create_post st d ip now ca false).1 = CreateResult.persistFailed p) :
    ((create_post st d ip now ca false).2).rl ip
      = record_post_ip now (pruneWindow now (st.rl ip))
    ∧ ((create_post st d ip now ca false).2).file = st.file := by
  unfold create_post at h ⊢
  dsimp only at h ⊢
  repeat' split at h
  all_goals simp_all [updateRL, record_post_ip, check_rate_limit]

/-- Witness for the amended C7: concrete failing-persist submission. -/
theorem record_despite_persist_failure_witness :
    ((create_post initState ⟨some "hello", none, some "world"⟩
        "ip1" 42 "ts" false).2).rl "ip1"
      = record_post_ip 42 (pruneWindow 42 (initState.rl "ip1"))
    ∧ ((create_post initState ⟨some "hello", none, some "world"⟩
        "ip1" 42 "ts" false).2).file = initState.file :=
  record_despite_persist_failure initState ⟨some "hello", none, some "world"⟩
    "ip1" 42 "ts" ⟨1, "hello", "Anonymous", "world", "ts"⟩ (by decide)

/-! ### Deletion (C8, C10) -/

theorem removeFirstById_found (ps : List Post) (pid : Nat)
    (hnd : (ps.map Post.id).Nodup) (hmem : ∃ p ∈ ps, p.id = pid) :
    removeFirstById ps pid = (ps.filter (fun p => p.id != pid), true) := by
  induction ps with
  | nil =>
      rcases hmem with ⟨p, hp, -⟩
      exact absurd hp (List.not_mem_nil p)
  | cons q rest ih =>
      simp only [List.map_cons, List.nodup_cons] at hnd
      simp only [removeFirstById, List.filter_cons]
      by_cases hq : q.id = pid
      · rw [if_pos hq, if_neg (by simp [hq])]
        have hfilter : rest.filter (fun p => p.id != pid) = rest :=
          List.filter_eq_self.mpr (fun u hu => by
            simp only [bne_iff_ne, ne_eq, decide_eq_true_eq]
            intro e
            exact hnd.1 (by
              rw [hq, ← e]
              exact List.mem_map_of_mem Post.id hu))
        rw [hfilter]
      · rw [if_neg hq]
        have hmem' : ∃ p ∈ rest, p.id = pid := by
          rcases hmem with ⟨p, hp, hpe⟩
          rcases List.mem_cons.mp hp with rfl | hp'
          · exact absurd hpe hq
          · exact ⟨p, hp', hpe⟩
        rw [ih hnd.2 hmem', if_pos (by simp [hq])]

theorem removeFirstById_not_found (ps : List Post) (pid : Nat)
    (h : ∀ p ∈ ps, p.id ≠ pid) :
    removeFirstById ps pid = (ps, false) := by
  induction ps with
  | nil => rfl
  | cons q rest ih =>
      simp only [removeFirstById]
      rw [if_neg (h q (List.mem_cons_self q rest)),
        ih (fun p hp => h p (List.mem_cons_of_mem q hp))]

/-- C8: with the correct admin key and an existing id, `delete_post` removes
exactly the targeted post, leaving every other post and its id unchanged
(and the id allocator untouched); with any supplied key other than the
configured key — incorrect, empty, or absent — it denies with Unauthorized
and leaves the state completely unchanged. -/
theorem delete_post_auth_frame (adminKey : String) (st : AppState)
    (key : Option String) (pid : Nat) :
    (key ≠ some adminKey →
      delete_post adminKey st key pid = (.unauthorized, st))
    ∧ (key = some adminKey → (st.posts.map Post.id).Nodup →
        (∃ p ∈ st.posts, p.id = pid) →
        (delete_post adminKey st key pid).1 = DeleteResult.deleted
        ∧ ((delete_post adminKey st key pid).2).posts
            = st.posts.filter (fun p => p.id != pid)
        ∧ ((delete_post adminKey st key pid).2).next_id = st.next_id) := by
  constructor
  · intro hne
    unfold delete_post
    rw [if_pos hne]
  · intro hk hnd hmem
    unfold delete_post
    dsimp only
    rw [if_neg (by simp [hk]), removeFirstById_found st.posts pid hnd hmem]
    exact ⟨rfl, rfl, rfl⟩

/-- Witness for C8: a wrong key is denied with the store untouched, and the
right key on a two-post store deletes exactly post 1, keeping post 2 and
the next-id counter 3. -/
theorem delete_post_auth_frame_witness :
    (delete_post "k"
        ⟨[⟨1, "a", "n", "c", "t"⟩, ⟨2, "b", "n", "c", "t"⟩], 3,
          fun _ => [], .missing, 0⟩ (some "wrong") 1
      = (.unauthorized,
          ⟨[⟨1, "a", "n", "c", "t"⟩, ⟨2, "b", "n", "c", "t"⟩], 3,
            fun _ => [], .missing, 0⟩))
    ∧ ((delete_post "k"
          ⟨[⟨1, "a", "n", "c", "t"⟩, ⟨2, "b", "n", "c", "t"⟩], 3,
            fun _ => [], .missing, 0⟩ (some "k") 1).1 = DeleteResult.deleted
        ∧ ((delete_post "k"
            ⟨[⟨1, "a", "n", "c", "t"⟩, ⟨2, "b", "n", "c", "t"⟩], 3,
              fun _ => [], .missing, 0⟩ (some "k") 1).2).posts
            = List.filter (fun p => p.id != 1)
                [⟨1, "a", "n", "c", "t"⟩, ⟨2, "b", "n", "c", "t"⟩]
        ∧ ((delete_post "k"
            ⟨[⟨1, "a", "n", "c", "t"⟩, ⟨2, "b", "n", "c", "t"⟩], 3,
              fun _ => [], .missing, 0⟩ (some "k") 1).2).next_id = 3) :=
  ⟨(delete_post_auth_frame "k"
      ⟨[⟨1, "a", "n", "c", "t"⟩, ⟨2, "b", "n", "c", "t"⟩], 3,
        fun _ => [], .missing, 0⟩ (some "wrong") 1).1 (by decide),
   (delete_post_auth_frame "k"
      ⟨[⟨1, "a", "n", "c", "t"⟩, ⟨2, "b", "n", "c", "t"⟩], 3,
        fun _ => [], .missing, 0⟩ (some "k") 1).2 rfl (by decide)
     ⟨⟨1, "a", "n", "c", "t"⟩, by decide, rfl⟩⟩

/-- C10: with the correct admin key but no stored post carrying the
requested id, `delete_post` returns NotFound and mutates nothing: the
returned state is exactly the input state, so the in-memory collection,
the on-disk file and the count of completed `save_posts` calls are all
unchanged — persist is never invoked. -/
theorem delete_notfound_frame (adminKey : String) (st : AppState)
    (key : Option String) (pid : Nat) (hk : key = some adminKey)
    (hmem : ∀ p ∈ st.posts, p.id ≠ pid) :
    delete_post adminKey st key pid = (.notFound, st) := by
  unfold delete_post
  dsimp only
  rw [if_neg (by simp [hk]), removeFirstById_not_found st.posts pid hmem]
  rfl

/-- Witness for C10: correct key, id 9 absent from a one-post store. -/
theorem delete_notfound_frame_witness :
    delete_post "k" ⟨[⟨1, "a", "n", "c", "t"⟩], 2, fun _ => [], .missing, 0⟩
        (some "k") 9
      = (.notFound,
          ⟨[⟨1, "a", "n", "c", "t"⟩], 2, fun _ => [], .missing, 0⟩) :=
  delete_notfound_frame "k"
    ⟨[⟨1, "a", "n", "c", "t"⟩], 2, fun _ => [], .missing, 0⟩
    (some "k") 9 rfl (by decide)

end Blog
